import Mathlib

/-!
Shallow embedding of `packages/vm/src/evm/opcodes/util.ts`: the gas-metering,
memory-growth and byte-buffer helpers of the EVM opcode layer.  JavaScript
`bigint` values are embedded as `Int` (with `Int.tdiv`/`Int.tmod` for the
truncating `/` and `%`), `BN` values (always non-negative) as `Int` or `Nat`,
and `Buffer` values as `List Nat`.
-/

namespace EvmOpcodeUtil

/-- Embeds `mod` (util.ts lines 262-268): JavaScript `%` is the truncating
remainder (`Int.tmod`); a negative remainder is shifted by `b`. -/
def mod (a b : Int) : Int :=
  let r := a.tmod b
  if r < 0 then b + r else r

/-- Embeds `divCeil` (util.ts lines 65-74): truncating division, then round
away from zero when the `mod` is non-zero. -/
def divCeil (a b : Int) : Int :=
  let div := a.tdiv b
  let modulus := mod a b
  if modulus = 0 then div
  else if div < 0 then div - 1 else div + 1

/-- Embeds JavaScript `BigInt.asUintN(256, a)`: the value reduced into
`[0, 2^256)`, which is the Euclidean remainder by the positive `2^256`. -/
def asUintN256 (a : Int) : Int := a.emod (2 ^ 256)

/-- Embeds the JavaScript bitwise complement `~a` on `bigint`, which equals
`-a - 1`. -/
def bnot (a : Int) : Int := -a - 1

/-- Embeds `fromTwos` (util.ts lines 270-272): `BigInt.asUintN(256, ~(a - 1n))`. -/
def fromTwos (a : Int) : Int := asUintN256 (bnot (a - 1))

/-- Embeds `toTwos` (util.ts lines 274-276): `BigInt.asUintN(256, ~a) + 1n`;
note the `+ 1n` is applied after the 256-bit reduction. -/
def toTwos (a : Int) : Int := asUintN256 (bnot a) + 1

/-- Modelled from the spec: `setLengthRight` of the monorepo's util package
(not under `src/`), per §4.2 the raw slice "is then right-padded with zero
bytes until it is exactly `length` bytes". -/
def setLengthRight (msg : List Nat) (length : Nat) : List Nat :=
  if msg.length < length then msg ++ List.replicate (length - msg.length) 0
  else msg.take length

/-- Embeds `getDataSlice` (util.ts lines 95-111): clamp `offset` to the data
length, clamp the slice end to the data length, slice, right-pad to `length`. -/
def getDataSlice (data : List Nat) (offset length : Nat) : List Nat :=
  let len := data.length
  let offset2 := if offset > len then len else offset
  let endIdx := if offset2 + length > len then len else offset2 + length
  setLengthRight ((data.take endIdx).drop offset2) length

/-- Modelled from the spec: `setLengthLeft` of the monorepo's util package
(not under `src/`), per §4.2 it "left-pads with zero bytes to 32 bytes";
padding never removes bytes, so a message at least `length` long is returned
as is. -/
def setLengthLeft (msg : List Nat) (length : Nat) : List Nat :=
  if msg.length < length then List.replicate (length - msg.length) 0 ++ msg
  else msg

/-- Embeds `setLengthLeftStorage` (util.ts lines 15-22): a buffer equal to the
all-zero buffer of its own length collapses to the empty buffer, otherwise it
is left-padded to 32 bytes. -/
def setLengthLeftStorage (value : List Nat) : List Nat :=
  if value = List.replicate value.length 0 then []
  else setLengthLeft value 32

/-- Embeds `maxCallGas` (util.ts lines 169-177); the hardfork query
`common.gteHardfork('tangerineWhistle')` (code outside `src/`) is passed in
as the boolean it returns. -/
def maxCallGas (gasLimit gasLeft : Nat) (isTangerineWhistleOrLater : Bool) : Nat :=
  if isTangerineWhistleOrLater then
    let gasAllowed := gasLeft - gasLeft / 64
    if gasLimit > gasAllowed then gasAllowed else gasLimit
  else gasLimit

/-- The VM error kinds raised by the embedded charging functions. -/
inductive VmError where
  | outOfGas
deriving DecidableEq, Repr

/-- The fields of `RunState` read and written by `subMemUsage`. -/
structure RunState where
  gasLeft : Int
  highestMemCost : Int
  memoryWordCount : Int
deriving DecidableEq, Repr

/-- The protocol parameters read by `subMemUsage`. -/
structure MemParams where
  memory : Int
  quadCoeffDiv : Int
deriving DecidableEq, Repr

/-- Modelled from the spec: `eei.useGas` (code outside `src/`), per §6
"useGas(amount, reason) -> fails with OutOfGas if amount > gasLeft",
otherwise the amount is deducted. -/
def useGas (s : RunState) (amount : Int) : Except VmError RunState :=
  if amount > s.gasLeft then .error .outOfGas
  else .ok { s with gasLeft := s.gasLeft - amount }

/-- Embeds `subMemUsage` (util.ts lines 187-206), faithfully keeping its
comparison `newMemoryWordCount >= runState.memoryWordCount` on line 192 and
its cost formula `words * fee + (words * words) / quadCoeff` (BN division
truncates). -/
def subMemUsage (s : RunState) (offset length : Int) (p : MemParams) :
    Except VmError RunState :=
  if length = 0 then .ok s
  else
    let newMemoryWordCount := divCeil (offset + length) 32
    if newMemoryWordCount ≥ s.memoryWordCount then .ok s
    else
      let words := newMemoryWordCount
      let fee := p.memory
      let quadCoeff := p.quadCoeffDiv
      let cost := words * fee + (words * words).tdiv quadCoeff
      if cost > s.highestMemCost then
        match useGas s (cost - s.highestMemCost) with
        | .error e => .error e
        | .ok s1 => .ok { s1 with highestMemCost := cost, memoryWordCount := words }
      else .ok { s with memoryWordCount := words }

/-- The protocol parameters read by `updateSstoreGas`. -/
structure SstoreParams where
  sstoreReset : Int
  sstoreRefund : Int
  sstoreSet : Int
deriving DecidableEq, Repr

/-- The gas-ledger effect of one call to `updateSstoreGas`: the amounts passed
to `eei.useGas` and to `eei.refundGas`, in call order. -/
structure GasEffect where
  charged : List Int
  refunded : List Int
deriving DecidableEq, Repr

/-- Embeds `updateSstoreGas` (util.ts lines 235-260) as its gas-ledger effect.
`eei.useGas` / `eei.refundGas` are code outside `src/`; modelled from the
spec (§6) as ledger events, recorded here in call order.
`adjustSstoreGasEIP2929` is also outside `src/`; modelled from the spec
(§4.6), which accounts the warm/cold surcharge separately from the table
cost, so the table cost passes through unchanged. -/
def updateSstoreGas (currentStorage value : List Nat) (p : SstoreParams) : GasEffect :=
  if (value.length = 0 ∧ currentStorage.length = 0) ∨
     (value.length ≠ 0 ∧ currentStorage.length ≠ 0) then
    { charged := [p.sstoreReset], refunded := [] }
  else if value.length = 0 ∧ currentStorage.length ≠ 0 then
    { charged := [p.sstoreReset], refunded := [p.sstoreRefund] }
  else if value.length ≠ 0 ∧ currentStorage.length = 0 then
    { charged := [p.sstoreSet], refunded := [] }
  else
    { charged := [], refunded := [] }

/-- The storage-transition table of spec §4.6, amended at the (empty, empty)
row to what the code does (charge `sstoreReset`): a two-by-two match on
byte-length emptiness of the current and the new value. -/
def sstoreClassifySpec (currentStorage value : List Nat) (p : SstoreParams) : GasEffect :=
  if currentStorage.length = 0 then
    if value.length = 0 then { charged := [p.sstoreReset], refunded := [] }
    else { charged := [p.sstoreSet], refunded := [] }
  else
    if value.length = 0 then { charged := [p.sstoreReset], refunded := [p.sstoreRefund] }
    else { charged := [p.sstoreReset], refunded := [] }

/-- One memory-buffer effect of `writeCallOutput`: a call to `memory.extend`
or to `memory.write`. Modelled from the spec (§6) as recorded events, since
the `Memory` class is outside `src/`. -/
inductive MemOp where
  | extend (offset length : Nat)
  | write (offset length : Nat) (data : List Nat)
deriving DecidableEq, Repr

/-- Embeds `writeCallOutput` (util.ts lines 215-227) as its memory-effect
trace: nothing happens when the return data is empty; otherwise the output
length is truncated to the return data length and one `extend` plus one
`write` of that many bytes is issued. -/
def writeCallOutput (returnData : List Nat) (outOffset outLength : Nat) : List MemOp :=
  if returnData.length > 0 then
    let memOffset := outOffset
    let dataLength := if returnData.length < outLength then returnData.length else outLength
    let data := getDataSlice returnData 0 dataLength
    [MemOp.extend memOffset dataLength, MemOp.write memOffset dataLength data]
  else []

/-- The total number of bytes written to memory by a trace of memory effects. -/
def writtenBytes (ops : List MemOp) : Nat :=
  (ops.map fun op => match op with
    | .extend _ _ => 0
    | .write _ _ data => data.length).sum

/-- The right-padding helper always returns exactly `length` bytes. -/
lemma setLengthRight_length (msg : List Nat) (length : Nat) :
    (setLengthRight msg length).length = length := by
  unfold setLengthRight
  split <;> simp [List.length_take] <;> omega

/-- The overflow-safe slice always returns exactly `length` bytes. -/
lemma getDataSlice_length (data : List Nat) (offset length : Nat) :
    (getDataSlice data offset length).length = length :=
  setLengthRight_length _ _

/-- The truncating remainder of a negated dividend is the negated remainder. -/
lemma tmod_neg_left (a b : Int) : (-a).tmod b = -(a.tmod b) := by
  rw [Int.tmod_def, Int.tmod_def, Int.neg_tdiv]
  ring

/-- For a positive divisor the truncating remainder is strictly above `-b`. -/
lemma neg_lt_tmod (a : Int) {b : Int} (hb : 0 < b) : -b < a.tmod b := by
  rcases le_or_lt 0 a with ha | ha
  · have := Int.tmod_nonneg b ha
    omega
  · have h1 : (-a).tmod b < b := Int.tmod_lt_of_pos (-a) hb
    have h2 : (-a).tmod b = -(a.tmod b) := tmod_neg_left a b
    omega

end EvmOpcodeUtil

namespace EvmOpcodeUtil

/-- Claim C1: with the growth comparison as written in the code
(`newMemoryWordCount >= runState.memoryWordCount` returns early), a call that
strictly increases the word count charges nothing and mutates nothing,
contrary to the claim.  From `memoryWordCount = 0`, `offset = 0`,
`length = 32` the new word count is `1 > 0`, yet the context is returned
unchanged instead of being charged `1*3 + 1*1/512 = 3` gas. -/
theorem subMemUsage_growth_no_charge :
    subMemUsage ⟨100, 0, 0⟩ 0 32 ⟨3, 512⟩ = .ok ⟨100, 0, 0⟩ ∧
    divCeil (0 + 32) 32 = 1 ∧ (0 : Int) < 1 :=
  ⟨rfl, rfl, by decide⟩

/-- Claim C2: the memory word count is not non-decreasing: a call whose new
word count (`1`, from `offset = 0`, `length = 32`) is below the current word
count (`2`) passes the code's reversed comparison and lowers
`memoryWordCount` from `2` to `1`. -/
theorem subMemUsage_wordCount_decrease :
    subMemUsage ⟨1000, 100, 2⟩ 0 32 ⟨3, 512⟩ = .ok ⟨1000, 100, 1⟩ ∧
    (1 : Int) < 2 :=
  ⟨rfl, by decide⟩

/-- Claim C3, counterexample: on the (empty current, empty new) transition the
code charges `sstoreReset` (here `5000`), not nothing: the first branch of
`updateSstoreGas` covers the both-empty case together with the
both-non-empty case. -/
theorem updateSstoreGas_empty_empty_charges :
    updateSstoreGas [] [] ⟨5000, 15000, 20000⟩ =
      { charged := [5000], refunded := [] } ∧
    ({ charged := [5000], refunded := [] } : GasEffect) ≠
      { charged := [], refunded := [] } := by
  constructor
  · rfl
  · decide

/-- Claim C3, amended: classification is by byte-length emptiness with the
(empty, empty) row charging `sstoreReset` and refunding nothing; the other
three rows are as the claim states them, and non-empty values are charged as
a reset regardless of their bytes (only lengths are inspected). -/
theorem updateSstoreGas_matches_table
    (currentStorage value : List Nat) (p : SstoreParams) :
    updateSstoreGas currentStorage value p = sstoreClassifySpec currentStorage value p := by
  cases currentStorage <;> cases value <;>
    simp [updateSstoreGas, sstoreClassifySpec]

/-- Claim C4: the round trip fails at `x = 0`: `fromTwos 0 = 0`, and
`toTwos 0 = 2 ^ 256` because the trailing `+ 1n` in `toTwos` is applied
after the 256-bit reduction, so the result escapes the 256-bit range instead
of wrapping to `0`. -/
theorem toTwos_fromTwos_zero :
    toTwos (fromTwos 0) = 2 ^ 256 ∧ (2 ^ 256 : Int) ≠ 0 := by
  constructor
  · norm_num [toTwos, fromTwos, asUintN256, bnot]
  · norm_num

/-- Claim C5, counterexample: for the negative divisor `b = -3` and `a = 5`
the result is `2`, which is neither zero nor of the sign of `b`, so the
claimed floor-modulo law fails for negative divisors. -/
theorem mod_neg_divisor_cex :
    mod 5 (-3) = 2 ∧ ¬(mod 5 (-3) = 0 ∨ mod 5 (-3) < 0) := by
  constructor
  · rfl
  · decide

/-- Claim C5, amended: for every `a` and every positive `b` the result of
`mod` lies in `[0, b)`: it is never negative, hence zero or of the sign of
`b`; negative divisors are outside the guarantee. -/
theorem mod_pos_divisor_bounds (a b : Int) (hb : 0 < b) :
    0 ≤ mod a b ∧ mod a b < b := by
  simp only [mod]
  have h1 : a.tmod b < b := Int.tmod_lt_of_pos a hb
  have h2 : -b < a.tmod b := neg_lt_tmod a hb
  split <;> omega

/-- Claim C5, witness: `mod (-5) 3 = 1` is within `[0, 3)`. -/
theorem mod_pos_divisor_bounds_witness :
    0 ≤ mod (-5) 3 ∧ mod (-5) 3 < 3 :=
  mod_pos_divisor_bounds (-5) 3 (by decide)

/-- Claim C6: before tangerineWhistle the requested gas limit is returned
unchanged for all inputs; from tangerineWhistle on the result is
`min gasLimit (gasLeft - gasLeft / 64)`; in particular `gasLeft = 1000000`
with request `990000` forwards `984375` and with request `900000` forwards
`900000`. -/
theorem maxCallGas_spec (gasLimit gasLeft : Nat) :
    maxCallGas gasLimit gasLeft false = gasLimit ∧
    maxCallGas gasLimit gasLeft true = min gasLimit (gasLeft - gasLeft / 64) ∧
    maxCallGas 990000 1000000 true = 984375 ∧
    maxCallGas 900000 1000000 true = 900000 := by
  refine ⟨rfl, ?_, by decide, by decide⟩
  simp only [maxCallGas, if_true]
  split <;> omega

/-- Claim C7: the slice always has exactly `length` bytes, and an offset at
or past the end of the data yields all zero bytes. -/
theorem getDataSlice_length_and_oob (data : List Nat) (offset length : Nat) :
    (getDataSlice data offset length).length = length ∧
    (data.length ≤ offset → getDataSlice data offset length = List.replicate length 0) := by
  refine ⟨getDataSlice_length data offset length, fun h => ?_⟩
  simp only [getDataSlice]
  have hdrop : ∀ k m : Nat, data.length ≤ m → (data.take k).drop m = [] := by
    intro k m hm
    apply List.drop_eq_nil_of_le
    simp [List.length_take]
    omega
  rw [hdrop _ _ (by split <;> omega)]
  unfold setLengthRight
  split
  · simp
  · simp_all

/-- Claim C7, witness: slicing 4 bytes at offset 5 of a 3-byte buffer gives
exactly the 4-byte all-zero buffer. -/
theorem getDataSlice_length_and_oob_witness :
    (getDataSlice [1, 2, 3] 5 4).length = 4 ∧
    getDataSlice [1, 2, 3] 5 4 = List.replicate 4 0 :=
  ⟨(getDataSlice_length_and_oob [1, 2, 3] 5 4).1,
   (getDataSlice_length_and_oob [1, 2, 3] 5 4).2 (by decide)⟩

/-- Claim C8: for non-negative `a` and positive `b`, `divCeil` is the least
integer at or above the exact quotient: `divCeil a b * b ≥ a` and
`(divCeil a b - 1) * b < a`. -/
theorem divCeil_bounds (a b : Int) (ha : 0 ≤ a) (hb : 0 < b) :
    a ≤ divCeil a b * b ∧ (divCeil a b - 1) * b < a := by
  have hr0 : 0 ≤ a.tmod b := Int.tmod_nonneg b ha
  have hrb : a.tmod b < b := Int.tmod_lt_of_pos a hb
  have hqr : b * a.tdiv b + a.tmod b = a := Int.tdiv_add_tmod a b
  have hq0 : 0 ≤ a.tdiv b := Int.tdiv_nonneg ha (le_of_lt hb)
  have hqr' : a.tdiv b * b + a.tmod b = a := by rw [mul_comm]; exact hqr
  have hr : a.tmod b = 0 ∨ 0 < a.tmod b := hr0.eq_or_lt.imp Eq.symm id
  simp only [divCeil, mod]
  split_ifs <;> constructor <;> rcases hr with hr | hr <;>
    first
      | omega
      | nlinarith [hqr', hrb, hq0, hb, hr]

/-- Claim C8, witness: `divCeil 7 3 = 3` satisfies `3 * 3 ≥ 7` and
`2 * 3 < 7`. -/
theorem divCeil_bounds_witness :
    (7 : Int) ≤ divCeil 7 3 * 3 ∧ (divCeil 7 3 - 1) * 3 < 7 :=
  divCeil_bounds 7 3 (by decide) (by decide)

/-- Claim C9, counterexample: a non-zero value of 33 bytes is returned at
length 33, not at the claimed exactly 32 bytes: left-padding never shortens
a value already longer than 32 bytes. -/
theorem setLengthLeftStorage_long_cex :
    (setLengthLeftStorage (List.replicate 33 1)).length = 33 ∧ (33 : Nat) ≠ 32 := by
  constructor
  · rfl
  · decide

/-- Claim C9, amended: for values of at most 32 bytes the claim holds: an
all-zero value (the empty one included) collapses to the empty buffer, and
any other value comes back as exactly 32 bytes, the value left-padded with
zero bytes; values longer than 32 bytes are outside the guarantee. -/
theorem setLengthLeftStorage_spec (value : List Nat) (hlen : value.length ≤ 32) :
    ((∀ b ∈ value, b = 0) → setLengthLeftStorage value = []) ∧
    (¬(∀ b ∈ value, b = 0) →
      setLengthLeftStorage value = List.replicate (32 - value.length) 0 ++ value ∧
      (setLengthLeftStorage value).length = 32) := by
  constructor
  · intro hz
    unfold setLengthLeftStorage
    rw [if_pos]
    exact (List.eq_replicate_iff.mpr ⟨rfl, hz⟩)
  · intro hnz
    have hne : value ≠ List.replicate value.length 0 := by
      intro hEq
      exact hnz fun b hb => (List.eq_replicate_iff.mp hEq).2 b hb
    unfold setLengthLeftStorage setLengthLeft
    rw [if_neg hne]
    rcases Nat.lt_or_ge value.length 32 with hlt | hge
    · rw [if_pos hlt]
      exact ⟨rfl, by simp; omega⟩
    · have h32 : value.length = 32 := le_antisymm hlen hge
      rw [if_neg (by omega)]
      exact ⟨by simp [h32], h32⟩

/-- Claim C9, witness: the one-byte value `[5]` is padded to 32 bytes. -/
theorem setLengthLeftStorage_spec_witness :
    setLengthLeftStorage [5] = List.replicate 31 0 ++ [5] ∧
    (setLengthLeftStorage [5]).length = 32 :=
  (setLengthLeftStorage_spec [5] (by decide)).2 (by decide)

/-- Claim C10: the number of bytes written to memory is
`min outLength (length of the return data)`, and on empty return data the
effect trace is empty: memory is neither extended nor written. -/
theorem writeCallOutput_bytes_written
    (returnData : List Nat) (outOffset outLength : Nat) :
    writtenBytes (writeCallOutput returnData outOffset outLength) =
      min outLength returnData.length ∧
    writeCallOutput [] outOffset outLength = [] := by
  constructor
  · unfold writeCallOutput writtenBytes
    split
    · simp [getDataSlice_length]
      split <;> omega
    · simp
      omega
  · rfl

end EvmOpcodeUtil
